import Mathlib

/-!
Shallow embedding of the document record store and collaboration session
manager of the schiller.town repository.

The document record store in the id-keyed regime is split between the
PartyKit storage server (`DocumentsServer`, low-level storage operations
keyed by document id) and the Remix API routes which hold the business
logic: create (POST /api/documents), get by slug (GET /api/documents/:slug),
update (PUT), rename (PATCH), delete (DELETE), archive and restore
(POST /api/documents/:slug/archive and .../restore).

Storage (`this.party.storage`) is modelled as an association list from key
to document; `storage.put` overwrites an existing key or appends,
`storage.list` yields the entries, `storage.delete` removes a key.
-/

namespace SchillerTown

/-- Document record, as declared in src/app/routes/api.documents.tsx and in
the id-keyed DocumentsServer: id (stable storage key), slug, title, content,
createdAt, updatedAt, archived. Timestamps are `Date.now()` values,
modelled as naturals. -/
structure Document where
  id : String
  slug : String
  title : String
  content : String
  createdAt : Nat
  updatedAt : Nat
  archived : Bool
deriving Repr, DecidableEq

/-- The durable key-value storage of one PartyKit room: an association list
of (key, document) entries. -/
abbrev Store := List (String × Document)

/-- Model of `this.party.storage.get<Document>(key)`. -/
def storageGet (st : Store) (key : String) : Option Document :=
  (st.find? (fun kv => kv.1 == key)).map (fun kv => kv.2)

/-- Model of `this.party.storage.put(key, doc)`: overwrite the entry with
this key when present, otherwise add a new entry. -/
def storagePut (st : Store) (key : String) (doc : Document) : Store :=
  if st.any (fun kv => kv.1 == key) then
    st.map (fun kv => if kv.1 == key then (key, doc) else kv)
  else
    st ++ [(key, doc)]

/-- Model of `this.party.storage.delete(key)`. -/
def storageDelete (st : Store) (key : String) : Store :=
  st.filter (fun kv => kv.1 != key)

/-- The storage-get-by-slug operation of the id-keyed DocumentsServer:
scan all entries of `storage.list()` and return the first document whose
slug field matches. -/
def storageGetBySlug (st : Store) (slug : String) : Option Document :=
  (st.find? (fun kv => kv.2.slug == slug)).map (fun kv => kv.2)

/-- One character of the slug character class of the validation regex
`/^[a-zA-Z0-9._-]+$/` used by the create and rename routes. -/
def isSlugChar (c : Char) : Bool :=
  ('a' ≤ c && c ≤ 'z') || ('A' ≤ c && c ≤ 'Z') || ('0' ≤ c && c ≤ '9') ||
    c == '.' || c == '_' || c == '-'

/-- Model of `slugRegex.test(s)` for `/^[a-zA-Z0-9._-]+$/`: nonempty and
every character in the class. -/
def isValidSlug (s : String) : Bool :=
  !s.toList.isEmpty && s.toList.all isSlugChar

/-- Model of `!s || s.trim() === ""` on a string: true exactly when the
string consists only of whitespace (in particular when it is empty). -/
def isBlank (s : String) : Bool :=
  s.toList.all (fun c => c.isWhitespace)

/-- Error outcomes of the record-store API routes. The HTTP codes in the
source are 400 for validation failures, 409 for slug conflicts, 404 for
missing documents, 400 for delete-before-archive (named PreconditionFailed
in the specification's taxonomy) and 500 for storage failures. -/
inductive ApiError where
  | validationError
  | conflict
  | notFound
  | preconditionFailed
  | serverError
deriving Repr, DecidableEq

/-- Result of one record-store API call: the HTTP-level result, the storage
contents afterwards, and the storage writes and deletes the call performed,
in order. -/
structure OpResult (α : Type) where
  result : Except ApiError α
  store : Store
  puts : List (String × Document)
  dels : List String
deriving Repr

/-- Well-formed storage in the id-keyed regime: every entry is keyed by its
document's id, ids are pairwise distinct, and slugs are pairwise distinct. -/
abbrev WF (st : Store) : Prop :=
  (∀ kv ∈ st, kv.1 = kv.2.id) ∧
    st.Pairwise (fun a b => a.2.id ≠ b.2.id) ∧
    st.Pairwise (fun a b => a.2.slug ≠ b.2.slug)

/-- Decimal rendering of a `Date.now()` value, as produced by the template
literal `${now}` in the generator expressions. -/
def natDecimalRepr (n : Nat) : String :=
  if n = 0 then "0" else String.mk ((Nat.digits 10 n).reverse.map Nat.digitChar)

/-- The 36 characters produced by `Number.prototype.toString(36)`. -/
def base36Chars : List Char := "0123456789abcdefghijklmnopqrstuvwxyz".toList

/-- One base-36 digit character. -/
def base36Char (d : Fin 36) : Char := base36Chars.getD d.val 'x'

/-- The random fragment `Math.random().toString(36).substr(2, 9)`: a string
of base-36 digit characters, modelled by the list of digits drawn. -/
def base36String (ds : List (Fin 36)) : String := String.mk (ds.map base36Char)

/-- The generator expression
`doc-(dollar){now}-(dollar){Math.random().toString(36).substr(2, 9)}`
shared by the create route (fresh document ids), the index-page create
action (fresh slugs) and the lazy id migration (fresh ids for legacy
records). The time value and the drawn base-36 digits are parameters. -/
def generatedName (now : Nat) (ds : List (Fin 36)) : String :=
  "doc-" ++ natDecimalRepr now ++ "-" ++ base36String ds

/-- GET /api/documents/:slug and the storage-get-by-id route: lookup of a
document by its stable id (direct keyed get in the DocumentsServer). -/
def getDocById (st : Store) (id : String) : Option Document :=
  storageGet st id

/-- POST /api/documents (src/app/routes/api.documents.tsx action): validate
the slug (`!body.slug || !slugRegex.test(body.slug)` yields the 400
validation response), reject a slug already held by any existing record
with 409, then build the record with a generated id and `Date.now()`
timestamps and persist it through storage-put, which keys by the
document's id. `title: body.title || "Untitled"` defaults a missing or
empty title. -/
def apiCreate (st : Store) (slugArg : Option String) (titleArg : Option String)
    (now : Nat) (ds : List (Fin 36)) : OpResult Document :=
  match slugArg with
  | none => { result := .error .validationError, store := st, puts := [], dels := [] }
  | some s =>
    if !isValidSlug s then
      { result := .error .validationError, store := st, puts := [], dels := [] }
    else if (storageGetBySlug st s).isSome then
      { result := .error .conflict, store := st, puts := [], dels := [] }
    else
      let doc : Document :=
        { id := generatedName now ds
          slug := s
          title := match titleArg with | none => "Untitled" | some t => if t = "" then "Untitled" else t
          content := ""
          createdAt := now
          updatedAt := now
          archived := false }
      { result := .ok doc, store := storagePut st doc.id doc,
        puts := [(doc.id, doc)], dels := [] }

/-- The index-page create action (action === "create"): generate a random
slug `doc-(dollar){Date.now()}-(dollar){Math.random().toString(36).substr(2, 9)}`
and POST it with title "Untitled" to /api/documents. This is the only
create path with no slug argument: slug generation happens in this caller,
validation and persistence in the route. -/
def uiCreate (st : Store) (slugNow : Nat) (slugDs : List (Fin 36))
    (idNow : Nat) (idDs : List (Fin 36)) : OpResult Document :=
  apiCreate st (some (generatedName slugNow slugDs)) (some "Untitled") idNow idDs

/-- A PUT /api/documents/:slug request body, `Partial<Document>`: any subset
of the record's fields. -/
structure DocPatch where
  id : Option String := none
  slug : Option String := none
  title : Option String := none
  content : Option String := none
  createdAt : Option Nat := none
  updatedAt : Option Nat := none
  archived : Option Bool := none
deriving Repr, DecidableEq

/-- The object spread `{ ...doc, ...updates, id: doc.id, slug: doc.slug,
updatedAt: Date.now() }` of the PUT handler: every field present in the
payload wins over the stored field, and then id, slug and updatedAt are
pinned. -/
def mergeUpdate (doc : Document) (u : DocPatch) (now : Nat) : Document :=
  { id := doc.id
    slug := doc.slug
    title := u.title.getD doc.title
    content := u.content.getD doc.content
    createdAt := u.createdAt.getD doc.createdAt
    updatedAt := now
    archived := u.archived.getD doc.archived }

/-- PUT /api/documents/:slug (update): fetch by slug, 404 when absent,
merge the payload with id and slug pinned and updatedAt bumped, persist
through storage-put keyed by the document's id. -/
def updateDoc (st : Store) (slug : String) (u : DocPatch) (now : Nat) :
    OpResult Document :=
  match storageGetBySlug st slug with
  | none => { result := .error .notFound, store := st, puts := [], dels := [] }
  | some doc =>
    let d := mergeUpdate doc u now
    { result := .ok d, store := storagePut st d.id d, puts := [(d.id, d)], dels := [] }

/-- PATCH /api/documents/:slug (rename): reject a missing or blank new slug
and a new slug failing the format regex with 400; when the new slug equals
the addressed slug return the stored record unchanged with no write; when
any record already holds the new slug return 409 with no write; otherwise
fetch the record, change only its slug and updatedAt, and persist it in
place through storage-put under its unchanged id key. -/
def renameDoc (st : Store) (slug : String) (newSlug : String) (now : Nat) :
    OpResult Document :=
  if isBlank newSlug then
    { result := .error .validationError, store := st, puts := [], dels := [] }
  else if !isValidSlug newSlug then
    { result := .error .validationError, store := st, puts := [], dels := [] }
  else if newSlug = slug then
    match storageGetBySlug st slug with
    | some doc => { result := .ok doc, store := st, puts := [], dels := [] }
    | none => { result := .error .serverError, store := st, puts := [], dels := [] }
  else if (storageGetBySlug st newSlug).isSome then
    { result := .error .conflict, store := st, puts := [], dels := [] }
  else
    match storageGetBySlug st slug with
    | none => { result := .error .notFound, store := st, puts := [], dels := [] }
    | some doc =>
      let d := { doc with slug := newSlug, updatedAt := now }
      { result := .ok d, store := storagePut st d.id d, puts := [(d.id, d)], dels := [] }

/-- DELETE /api/documents/:slug: fetch by slug, 404 when absent; refuse with
400 ("Document must be archived before it can be deleted") unless archived;
otherwise delete the storage entry keyed by the document's id. -/
def deleteDoc (st : Store) (slug : String) : OpResult Unit :=
  match storageGetBySlug st slug with
  | none => { result := .error .notFound, store := st, puts := [], dels := [] }
  | some doc =>
    if !doc.archived then
      { result := .error .preconditionFailed, store := st, puts := [], dels := [] }
    else
      { result := .ok (), store := storageDelete st doc.id,
        puts := [], dels := [doc.id] }

/-- POST /api/documents/:slug/archive: fetch by slug, set archived to true
and updatedAt to `Date.now()`, persist through storage-put keyed by id.
No check of the current flag value is made. -/
def archiveDoc (st : Store) (slug : String) (now : Nat) : OpResult Document :=
  match storageGetBySlug st slug with
  | none => { result := .error .notFound, store := st, puts := [], dels := [] }
  | some doc =>
    let d := { doc with archived := true, updatedAt := now }
    { result := .ok d, store := storagePut st d.id d, puts := [(d.id, d)], dels := [] }

/-- POST /api/documents/:slug/restore: fetch by slug, set archived to false
and updatedAt to `Date.now()`, persist through storage-put keyed by id.
No check of the current flag value is made. -/
def restoreDoc (st : Store) (slug : String) (now : Nat) : OpResult Document :=
  match storageGetBySlug st slug with
  | none => { result := .error .notFound, store := st, puts := [], dels := [] }
  | some doc =>
    let d := { doc with archived := false, updatedAt := now }
    { result := .ok d, store := storagePut st d.id d, puts := [(d.id, d)], dels := [] }

/-- Completion-ordered events of one asynchronous handler run against the
party storage. A `putDone` records that the handler awaited the completion
of a storage put before continuing; `putIssued` alone would mark a
fire-and-forget write. The respond events mark the point at which the
handler produces its HTTP response. -/
inductive Ev where
  | getDone (key : String)
  | putIssued (key : String) (d : Document)
  | putDone (key : String) (d : Document)
  | respondDoc (d : Document)
  | respondNotFound
deriving Repr, DecidableEq

/-- Index of the first respond event of a trace. -/
def respondIdx (tr : List Ev) : Option Nat :=
  tr.findIdx? (fun e => match e with
    | .respondDoc _ => true
    | .respondNotFound => true
    | _ => false)

/-- Index of the first completed put of a trace. -/
def putDoneIdx (tr : List Ev) : Option Nat :=
  tr.findIdx? (fun e => match e with
    | .putDone _ _ => true
    | _ => false)

/-- A handler run does not wait on its storage put: either no put completes
during the run, or the response is produced strictly before the first put
completes. -/
def respondNotDelayedByPut (tr : List Ev) : Bool :=
  match putDoneIdx tr, respondIdx tr with
  | some i, some j => decide (j < i)
  | _, _ => true

/-- The storage-get handler of the slug-keyed DocumentsServer with lazy id
migration (src/party/documents.ts): get the record by slug key; when the
record has no id (`!doc.id`, modelled as an empty id string), assign a
generated id and `await this.party.storage.put(slug, doc)` before
responding with the migrated record. Returns the event trace in completion
order together with the resulting storage. -/
def storageGetWithMigration (st : Store) (slug : String) (now : Nat)
    (ds : List (Fin 36)) : List Ev × Store :=
  match storageGet st slug with
  | none => ([.getDone slug, .respondNotFound], st)
  | some doc =>
    if doc.id = "" then
      let d := { doc with id := generatedName now ds }
      ([.getDone slug, .putIssued slug d, .putDone slug d, .respondDoc d],
        storagePut st slug d)
    else
      ([.getDone slug, .respondDoc doc], st)

/-- A Y.Doc instance of the collaboration client, identified by its
allocation number. -/
structure YDocHandle where
  gen : Nat
deriving Repr, DecidableEq

/-- A YPartyKitProvider instance: its allocation number and the room it was
constructed for. -/
structure ProviderHandle where
  gen : Nat
  room : String
deriving Repr, DecidableEq

/-- Module-level state of src/app/utils/collaboration.client.tsx: the
nullable ydoc, provider, awareness and currentRoom variables, the live
provider's synced flag, plus an allocation counter and the destroyed
handles, kept for reasoning about teardown. -/
structure ManagerState where
  ydoc : Option YDocHandle
  provider : Option ProviderHandle
  awareness : Option Nat
  currentRoom : Option String
  providerSynced : Bool
  nextGen : Nat
  destroyedProviders : List Nat
  destroyedYDocs : List Nat
deriving Repr, DecidableEq

/-- The module state at load: every variable null. -/
def ManagerState.initial : ManagerState :=
  { ydoc := none, provider := none, awareness := none, currentRoom := none,
    providerSynced := false, nextGen := 0,
    destroyedProviders := [], destroyedYDocs := [] }

/-- The cleanup function: destroy the provider when present and null it,
destroy the ydoc when present and null it, null awareness and currentRoom.
A destroyed provider fires no further events. -/
def cleanup (s : ManagerState) : ManagerState :=
  { ydoc := none
    provider := none
    awareness := none
    currentRoom := none
    providerSynced := false
    nextGen := s.nextGen
    destroyedProviders :=
      match s.provider with
      | some p => p.gen :: s.destroyedProviders
      | none => s.destroyedProviders
    destroyedYDocs :=
      match s.ydoc with
      | some d => d.gen :: s.destroyedYDocs
      | none => s.destroyedYDocs }

/-- The getYDoc function (browser path): return the existing ydoc, or
allocate a fresh Y.Doc together with its Awareness instance. -/
def getYDoc (s : ManagerState) : ManagerState × YDocHandle :=
  match s.ydoc with
  | some d => (s, d)
  | none =>
    let d : YDocHandle := ⟨s.nextGen⟩
    ({ s with ydoc := some d, awareness := some s.nextGen, nextGen := s.nextGen + 1 }, d)

/-- The getProvider function (browser path): when the requested room
differs from a non-null currentRoom, run cleanup first; then, when no
provider is live, obtain the ydoc and construct a fresh provider bound to
the requested room, recording the room marker. The construction step
starts from the state cleanup produced. -/
def getProvider (s0 : ManagerState) (room : String) :
    ManagerState × Option ProviderHandle :=
  let s := if s0.currentRoom ≠ none ∧ s0.currentRoom ≠ some room then cleanup s0 else s0
  match s.provider with
  | some p => (s, some p)
  | none =>
    let sd := getYDoc s
    let s1 := sd.1
    match s1.awareness with
    | none => (s1, none)
    | some _ =>
      let p : ProviderHandle := ⟨s1.nextGen, room⟩
      let s2 : ManagerState :=
        { s1 with
          provider := some p
          currentRoom := some room
          providerSynced := false
          nextGen := s1.nextGen + 1 }
      (s2, some p)

/-- Local state of the DocPage consumer (src/app/routes/docs.(dollar)slug.tsx):
the isClient and isSynced flags, the ydoc reference, the documentId prop of
the current render, and the provider generation its handleSync callback is
attached to, if any. -/
structure ConsumerState where
  isClient : Bool
  isSynced : Bool
  ydocRef : Option YDocHandle
  docId : String
  subscription : Option Nat
deriving Repr, DecidableEq

/-- Consumer state before the first effect run. -/
def ConsumerState.initial : ConsumerState :=
  { isClient := false, isSynced := false, ydocRef := none, docId := "",
    subscription := none }

/-- The combined client: manager module state and consumer component
state. -/
structure World where
  mgr : ManagerState
  con : ConsumerState
deriving Repr, DecidableEq

/-- The initial client state. -/
def World.initial : World := { mgr := .initial, con := .initial }

/-- Cleanup of the room-change effect, run by React before the effect body
runs again for a new documentId: `provider.off("synced", handleSync)`
detaches the consumer's synced callback. -/
def roomChangeCleanup (w : World) : World :=
  { w with con := { w.con with subscription := none } }

/-- Body of the room-change effect of DocPage (dependency: documentId).
It synchronously resets isSynced to false and drops the ydoc reference
before requesting the session, then calls getProvider (which tears down a
session for a different room before constructing the new one) and getYDoc,
stores the ydoc reference, and either adopts an already-true synced flag
immediately or attaches its handleSync callback to the returned provider. -/
def roomChangeEffect (w : World) (documentId : String) : World :=
  let con0 := { w.con with
    isClient := true
    isSynced := false
    ydocRef := none
    docId := documentId
    subscription := none }
  let mp := getProvider w.mgr documentId
  let md := getYDoc mp.1
  match mp.2 with
  | none => { mgr := md.1, con := con0 }
  | some p =>
    let con1 := { con0 with ydocRef := some md.2 }
    if md.1.providerSynced then
      { mgr := md.1, con := { con1 with isSynced := true } }
    else
      { mgr := md.1, con := { con1 with subscription := some p.gen } }

/-- Arrival of the synced event fired by the provider instance with
allocation number g. A destroyed or superseded provider is not the live
provider, so its event changes nothing; the live provider's event sets the
provider's synced flag and invokes the consumer's handleSync callback when
the consumer is subscribed to that instance. -/
def syncedFires (w : World) (g : Nat) : World :=
  match w.mgr.provider with
  | none => w
  | some p =>
    if p.gen = g then
      { mgr := { w.mgr with providerSynced := true }
        con :=
          if w.con.subscription = some g then
            { w.con with isSynced := true }
          else w.con }
    else w

/-- The render gate of DocPage for the collaborative editors: editors are
constructed and editable only when isClient, a ydoc reference is held and
isSynced is true; the content rendered then comes from the referenced ydoc
handle. -/
def rendersHandle (w : World) (d : YDocHandle) : Prop :=
  w.con.isClient = true ∧ w.con.isSynced = true ∧ w.con.ydocRef = some d

theorem any_key_of_mem {st : Store} {k : String} {d : Document}
    (h : (k, d) ∈ st) : st.any (fun kv => kv.1 == k) = true := by
  induction st with
  | nil => simp at h
  | cons a tl ih =>
    rcases List.mem_cons.mp h with h | h
    · subst h; simp
    · simp [ih h]

theorem storageGetBySlug_eq_some {st : Store} {k : String} {r : Document}
    (hp : st.Pairwise (fun a b => a.2.slug ≠ b.2.slug))
    (hm : (k, r) ∈ st) : storageGetBySlug st r.slug = some r := by
  induction st with
  | nil => simp at hm
  | cons a tl ih =>
    rcases List.mem_cons.mp hm with h | h
    · subst h
      rw [storageGetBySlug, List.find?_cons_of_pos _ (by simp)]
      rfl
    · have hne : a.2.slug ≠ r.slug :=
        (List.pairwise_cons.mp hp).1 (k, r) h
      rw [storageGetBySlug, List.find?_cons_of_neg _ (by simpa using hne)]
      exact ih (List.pairwise_cons.mp hp).2 h

theorem storageGetBySlug_eq_none {st : Store} {s : String}
    (h : ∀ kv ∈ st, kv.2.slug ≠ s) : storageGetBySlug st s = none := by
  induction st with
  | nil => rfl
  | cons a tl ih =>
    rw [storageGetBySlug,
      List.find?_cons_of_neg _ (by simpa using h a (List.mem_cons_self a tl))]
    exact ih fun kv hkv => h kv (List.mem_cons_of_mem a hkv)

theorem storageGetBySlug_isSome {st : Store} {k : String} {o : Document}
    (hm : (k, o) ∈ st) : (storageGetBySlug st o.slug).isSome = true := by
  induction st with
  | nil => simp at hm
  | cons a tl ih =>
    by_cases hpa : a.2.slug == o.slug
    · rw [storageGetBySlug, List.find?_cons_of_pos _ (by exact hpa)]; rfl
    · rcases List.mem_cons.mp hm with h | h
      · subst h; simp at hpa
      · rw [storageGetBySlug, List.find?_cons_of_neg _ (by exact hpa)]
        exact ih h

theorem storageGet_storagePut_self (st : Store) (k : String) (v : Document) :
    storageGet (storagePut st k v) k = some v := by
  rw [storagePut]
  by_cases h : st.any (fun kv => kv.1 == k) = true
  · rw [if_pos h]
    induction st with
    | nil => simp at h
    | cons a tl ih =>
      by_cases ha : a.1 == k
      · rw [List.map_cons, if_pos ha, storageGet,
          List.find?_cons_of_pos _ (by simp)]
        rfl
      · rw [List.map_cons, if_neg ha, storageGet, List.find?_cons_of_neg _ (by exact ha)]
        exact ih (by simpa [List.any_cons, ha] using h)
  · rw [if_neg h]
    induction st with
    | nil =>
      rw [List.nil_append, storageGet, List.find?_cons_of_pos _ (by simp)]
      rfl
    | cons a tl ih =>
      have ha : ¬(a.1 == k) = true := by
        intro hk
        exact h (by simp [List.any_cons, hk])
      rw [List.cons_append, storageGet, List.find?_cons_of_neg _ (by exact ha)]
      exact ih (by intro hk; exact h (by simp [List.any_cons, hk]))

theorem storagePut_map_fst {st : Store} {k : String} {v : Document}
    (h : st.any (fun kv => kv.1 == k) = true) :
    (storagePut st k v).map Prod.fst = st.map Prod.fst := by
  rw [storagePut, if_pos h, List.map_map]
  refine List.map_congr_left fun kv _ => ?_
  by_cases hk : kv.1 == k
  · simp only [Function.comp_apply, if_pos hk]
    exact (eq_of_beq hk).symm
  · simp only [Function.comp_apply, if_neg hk]

theorem mem_storagePut_of_ne {st : Store} {k : String} {v : Document}
    {kv : String × Document} (hmem : kv ∈ st) (hne : kv.1 ≠ k) :
    kv ∈ storagePut st k v := by
  rw [storagePut]
  by_cases h : st.any (fun x => x.1 == k) = true
  · rw [if_pos h]
    have he : (fun x : String × Document => if x.1 == k then (k, v) else x) kv = kv := by
      simp [hne]
    exact he ▸ List.mem_map_of_mem _ hmem
  · rw [if_neg h]
    exact List.mem_append_left _ hmem

theorem storageGet_storageDelete_self (st : Store) (k : String) :
    storageGet (storageDelete st k) k = none := by
  rw [storageDelete]
  induction st with
  | nil => rfl
  | cons a tl ih =>
    by_cases ha : a.1 == k
    · rw [List.filter_cons_of_neg (by simp [bne, ha])]
      exact ih
    · rw [List.filter_cons_of_pos (by simp [bne, ha]), storageGet,
        List.find?_cons_of_neg _ (by exact ha)]
      exact ih

theorem mem_storageDelete_of_ne {st : Store} {k : String}
    {kv : String × Document} (hmem : kv ∈ st) (hne : kv.1 ≠ k) :
    kv ∈ storageDelete st k :=
  List.mem_filter.mpr ⟨hmem, by simpa [bne] using hne⟩

theorem isSlugChar_not_whitespace {c : Char} (h : isSlugChar c = true) :
    c.isWhitespace = false := by
  by_contra hw
  rw [Bool.not_eq_false, Char.isWhitespace] at hw
  simp only [Bool.or_eq_true, decide_eq_true_eq] at hw
  rcases hw with ((rfl | rfl) | rfl) | rfl <;> exact absurd h (by decide)

theorem isBlank_eq_false_of_valid {s : String} (h : isValidSlug s = true) :
    isBlank s = false := by
  rw [isValidSlug, Bool.and_eq_true] at h
  obtain ⟨hne, hall⟩ := h
  rw [isBlank]
  cases hl : s.toList with
  | nil => rw [hl] at hne; simp at hne
  | cons c cs =>
    rw [hl] at hall
    rw [List.all_cons, Bool.and_eq_true] at hall
    rw [List.all_cons, isSlugChar_not_whitespace hall.1, Bool.false_and]

theorem slug_ne_of_WF {st : Store} (h : WF st) {r o : Document}
    (hr : (r.id, r) ∈ st) (ho : (o.id, o) ∈ st) (hne : r.id ≠ o.id) :
    r.slug ≠ o.slug := by
  have hsym : Symmetric (fun a b : String × Document => a.2.slug ≠ b.2.slug) :=
    fun a b hab e => hab e.symm
  have hpair : (r.id, r) ≠ (o.id, o) := by
    intro e
    exact hne (congrArg Prod.fst e)
  exact h.2.2.forall hsym hr ho hpair

/-- Sample unarchived record for concrete instantiations. -/
def docA : Document :=
  { id := "id1", slug := "milk", title := "t", content := "c",
    createdAt := 1, updatedAt := 2, archived := false }

/-- Sample archived record for concrete instantiations. -/
def docB : Document :=
  { id := "id2", slug := "beer", title := "u", content := "d",
    createdAt := 3, updatedAt := 4, archived := true }

/-- Sample two-record store for concrete instantiations. -/
def sampleStore : Store := [("id1", docA), ("id2", docB)]

/-- C5: for every existing record whose slug has the validated format (the
format every slug created or renamed through the API has), calling rename
with the record's current slug is a no-op: it returns the record unchanged
(updatedAt included) and performs no storage write or delete. -/
theorem rename_same_slug_noop (st : Store) (r : Document) (now : Nat)
    (h : WF st) (hm : (r.id, r) ∈ st) (hv : isValidSlug r.slug = true) :
    renameDoc st r.slug r.slug now =
      { result := .ok r, store := st, puts := [], dels := [] } := by
  have hsome : storageGetBySlug st r.slug = some r :=
    storageGetBySlug_eq_some h.2.2 hm
  rw [renameDoc, isBlank_eq_false_of_valid hv, hv]
  simp only [Bool.not_true, Bool.false_eq_true, if_false, if_true, if_pos rfl, hsome]

/-- Witness for rename_same_slug_noop at a concrete store. -/
theorem rename_same_slug_noop_witness :
    WF sampleStore ∧
    renameDoc sampleStore "milk" "milk" 9 =
      { result := .ok docA, store := sampleStore, puts := [], dels := [] } :=
  ⟨by decide, rename_same_slug_noop sampleStore docA 9 (by decide) (by decide) (by decide)⟩

/-- C3: for every existing record, delete succeeds and removes exactly the
record's storage entry when the archived flag is true; when it is false,
delete fails with PreconditionFailed, performs no write or delete, and
leaves storage unchanged. -/
theorem delete_requires_archived (st : Store) (r : Document)
    (h : WF st) (hm : (r.id, r) ∈ st) :
    (r.archived = true →
      deleteDoc st r.slug =
        { result := .ok (), store := storageDelete st r.id, puts := [], dels := [r.id] } ∧
      getDocById (storageDelete st r.id) r.id = none ∧
      (∀ kv ∈ st, kv.1 ≠ r.id → kv ∈ storageDelete st r.id)) ∧
    (r.archived = false →
      deleteDoc st r.slug =
        { result := .error .preconditionFailed, store := st, puts := [], dels := [] }) := by
  have hsome : storageGetBySlug st r.slug = some r :=
    storageGetBySlug_eq_some h.2.2 hm
  constructor
  · intro ha
    refine ⟨?_, storageGet_storageDelete_self st r.id,
      fun kv hkv hne => mem_storageDelete_of_ne hkv hne⟩
    rw [deleteDoc, hsome]
    simp [ha]
  · intro ha
    rw [deleteDoc, hsome]
    simp [ha]

/-- Witness for delete_requires_archived: the archived record docB is
removed, the unarchived record docA is refused. -/
theorem delete_requires_archived_witness :
    (WF sampleStore ∧ docB.archived = true ∧
      deleteDoc sampleStore "beer" =
        { result := .ok (), store := storageDelete sampleStore "id2",
          puts := [], dels := ["id2"] }) ∧
    (docA.archived = false ∧
      deleteDoc sampleStore "milk" =
        { result := .error .preconditionFailed, store := sampleStore,
          puts := [], dels := [] }) :=
  ⟨⟨by decide, by decide,
      ((delete_requires_archived sampleStore docB (by decide) (by decide)).1 (by decide)).1⟩,
   ⟨by decide,
      (delete_requires_archived sampleStore docA (by decide) (by decide)).2 (by decide)⟩⟩

/-- C4: for every existing record r and every slug held by a distinct
record o, archived or not, rename of r to that slug fails with Conflict and
performs no storage write or delete, so storage and both records' slugs are
exactly what they were before the call. -/
theorem rename_conflict_no_write (st : Store) (r o : Document) (now : Nat)
    (h : WF st) (hr : (r.id, r) ∈ st) (ho : (o.id, o) ∈ st)
    (hne : r.id ≠ o.id) (hv : isValidSlug o.slug = true) :
    renameDoc st r.slug o.slug now =
      { result := .error .conflict, store := st, puts := [], dels := [] } ∧
    storageGetBySlug st r.slug = some r ∧
    storageGetBySlug st o.slug = some o := by
  have hslug : r.slug ≠ o.slug := slug_ne_of_WF h hr ho hne
  have hsome : (storageGetBySlug st o.slug).isSome = true :=
    storageGetBySlug_isSome ho
  have hcond : ¬(o.slug = r.slug) := fun e => hslug e.symm
  refine ⟨?_, storageGetBySlug_eq_some h.2.2 hr, storageGetBySlug_eq_some h.2.2 ho⟩
  rw [renameDoc, isBlank_eq_false_of_valid hv, hv]
  simp only [Bool.not_true, Bool.false_eq_true, if_false, hsome, if_true]
  rw [if_neg hcond]

/-- Witness for rename_conflict_no_write: renaming docA to the archived
record docB's slug is refused with no write. -/
theorem rename_conflict_no_write_witness :
    WF sampleStore ∧ docB.archived = true ∧
    renameDoc sampleStore "milk" "beer" 9 =
      { result := .error .conflict, store := sampleStore, puts := [], dels := [] } :=
  ⟨by decide, by decide,
    (rename_conflict_no_write sampleStore docA docB 9
      (by decide) (by decide) (by decide) (by decide) (by decide)).1⟩

/-- C10: archive and restore always fetch the record, stamp the requested
flag value and a fresh updatedAt, and write the record back through
storage-put keyed by id, even when the flag already holds the requested
value; a repeated call therefore performs a storage write and, whenever the
call's timestamp differs from the stored updatedAt, changes the stored
record. -/
theorem archive_restore_always_write (st : Store) (r : Document) (now : Nat)
    (h : WF st) (hm : (r.id, r) ∈ st) :
    archiveDoc st r.slug now =
      { result := .ok { r with archived := true, updatedAt := now },
        store := storagePut st r.id { r with archived := true, updatedAt := now },
        puts := [(r.id, { r with archived := true, updatedAt := now })], dels := [] } ∧
    restoreDoc st r.slug now =
      { result := .ok { r with archived := false, updatedAt := now },
        store := storagePut st r.id { r with archived := false, updatedAt := now },
        puts := [(r.id, { r with archived := false, updatedAt := now })], dels := [] } ∧
    getDocById (storagePut st r.id { r with archived := false, updatedAt := now }) r.id =
      some { r with archived := false, updatedAt := now } ∧
    getDocById (storagePut st r.id { r with archived := true, updatedAt := now }) r.id =
      some { r with archived := true, updatedAt := now } ∧
    (now ≠ r.updatedAt →
      getDocById (storagePut st r.id { r with archived := false, updatedAt := now }) r.id ≠
        some r ∧
      getDocById (storagePut st r.id { r with archived := true, updatedAt := now }) r.id ≠
        some r) := by
  have hsome : storageGetBySlug st r.slug = some r :=
    storageGetBySlug_eq_some h.2.2 hm
  refine ⟨?_, ?_, storageGet_storagePut_self st r.id _,
    storageGet_storagePut_self st r.id _, ?_⟩
  · rw [archiveDoc, hsome]
  · rw [restoreDoc, hsome]
  · intro hts
    constructor
    · rw [getDocById, storageGet_storagePut_self st r.id _]
      intro e
      exact hts (congrArg Document.updatedAt (Option.some.inj e))
    · rw [getDocById, storageGet_storagePut_self st r.id _]
      intro e
      exact hts (congrArg Document.updatedAt (Option.some.inj e))

/-- Witness for archive_restore_always_write: restore of the already
unarchived docA still writes and bumps updatedAt. -/
theorem archive_restore_always_write_witness :
    WF sampleStore ∧ docA.archived = false ∧
    restoreDoc sampleStore "milk" 9 =
      { result := .ok { docA with archived := false, updatedAt := 9 },
        store := storagePut sampleStore "id1" { docA with archived := false, updatedAt := 9 },
        puts := [("id1", { docA with archived := false, updatedAt := 9 })], dels := [] } :=
  ⟨by decide, by decide,
    (archive_restore_always_write sampleStore docA 9 (by decide) (by decide)).2.1⟩

/-- C1: for every existing record and every valid new slug held by no
record, rename changes only the slug field and updatedAt through a single
put under the record's unchanged id key: afterwards the id-keyed lookup
returns the record with the new slug, the key set of storage is unchanged
(no key deleted, no key created), and every entry of a different key is
untouched. -/
theorem rename_in_place_preserves_keys (st : Store) (r : Document)
    (newSlug : String) (now : Nat) (h : WF st) (hm : (r.id, r) ∈ st)
    (hv : isValidSlug newSlug = true)
    (hfree : ∀ kv ∈ st, kv.2.slug ≠ newSlug) :
    renameDoc st r.slug newSlug now =
      { result := .ok { r with slug := newSlug, updatedAt := now },
        store := storagePut st r.id { r with slug := newSlug, updatedAt := now },
        puts := [(r.id, { r with slug := newSlug, updatedAt := now })],
        dels := [] } ∧
    getDocById (renameDoc st r.slug newSlug now).store r.id =
      some { r with slug := newSlug, updatedAt := now } ∧
    (renameDoc st r.slug newSlug now).store.map Prod.fst = st.map Prod.fst ∧
    (∀ kv ∈ st, kv.1 ≠ r.id → kv ∈ (renameDoc st r.slug newSlug now).store) := by
  have hne : ¬(newSlug = r.slug) := fun e => hfree (r.id, r) hm e.symm
  have hnone : storageGetBySlug st newSlug = none := storageGetBySlug_eq_none hfree
  have hsome : storageGetBySlug st r.slug = some r :=
    storageGetBySlug_eq_some h.2.2 hm
  have hres : renameDoc st r.slug newSlug now =
      { result := .ok { r with slug := newSlug, updatedAt := now },
        store := storagePut st r.id { r with slug := newSlug, updatedAt := now },
        puts := [(r.id, { r with slug := newSlug, updatedAt := now })],
        dels := [] } := by
    rw [renameDoc, isBlank_eq_false_of_valid hv, hv, hnone, hsome]
    simp only [Bool.not_true, Bool.false_eq_true, if_false, if_neg hne,
      Option.isSome_none]
  refine ⟨hres, ?_, ?_, ?_⟩
  · rw [hres]
    exact storageGet_storagePut_self st r.id _
  · rw [hres]
    exact storagePut_map_fst (any_key_of_mem hm)
  · intro kv hkv hkne
    rw [hres]
    exact mem_storagePut_of_ne hkv hkne

/-- Witness for rename_in_place_preserves_keys: renaming docA to a fresh
slug rewrites only the id1 entry in place. -/
theorem rename_in_place_preserves_keys_witness :
    WF sampleStore ∧ isValidSlug "oat" = true ∧
    renameDoc sampleStore "milk" "oat" 9 =
      { result := .ok { docA with slug := "oat", updatedAt := 9 },
        store := storagePut sampleStore "id1" { docA with slug := "oat", updatedAt := 9 },
        puts := [("id1", { docA with slug := "oat", updatedAt := 9 })],
        dels := [] } ∧
    (renameDoc sampleStore "milk" "oat" 9).store.map Prod.fst =
      sampleStore.map Prod.fst :=
  ⟨by decide, by decide,
    (rename_in_place_preserves_keys sampleStore docA "oat" 9
      (by decide) (by decide) (by decide) (by decide)).1,
    (rename_in_place_preserves_keys sampleStore docA "oat" 9
      (by decide) (by decide) (by decide) (by decide)).2.2.1⟩

/-- A PUT payload that attempts to set the archived flag. -/
def archivedPatch : DocPatch := { archived := some true }

/-- C6 counterexample: the PUT handler pins only id and slug, so a payload
carrying archived wins the merge: updating the unarchived record docA with
a payload holding archived=true stores and returns archived=true, refuting
the claim that update leaves the archived flag unchanged when the payload
attempts to set it. -/
theorem update_payload_overrides_archived_cex :
    (storageGetBySlug sampleStore "milk").map Document.archived = some false ∧
    ((updateDoc sampleStore "milk" archivedPatch 9).result.toOption).map
      Document.archived = some true ∧
    (getDocById (updateDoc sampleStore "milk" archivedPatch 9).store "id1").map
      Document.archived = some true := by
  decide

/-- C6 (amended): PUT update pins exactly id and slug — these equal their
pre-update values even when the payload attempts to set them — and bumps
updatedAt; title, content, createdAt and archived are merged from the
payload, so createdAt and archived are preserved exactly when the payload
omits them; the write is a single put under the record's id key. -/
theorem update_pins_only_id_slug (st : Store) (slug : String) (u : DocPatch)
    (now : Nat) (r : Document) (hsome : storageGetBySlug st slug = some r) :
    updateDoc st slug u now =
      { result := .ok (mergeUpdate r u now),
        store := storagePut st r.id (mergeUpdate r u now),
        puts := [(r.id, mergeUpdate r u now)], dels := [] } ∧
    (mergeUpdate r u now).id = r.id ∧
    (mergeUpdate r u now).slug = r.slug ∧
    (mergeUpdate r u now).updatedAt = now ∧
    (u.title = none → (mergeUpdate r u now).title = r.title) ∧
    (u.content = none → (mergeUpdate r u now).content = r.content) ∧
    (u.createdAt = none → (mergeUpdate r u now).createdAt = r.createdAt) ∧
    (u.archived = none → (mergeUpdate r u now).archived = r.archived) := by
  refine ⟨?_, rfl, rfl, rfl, ?_, ?_, ?_, ?_⟩
  · rw [updateDoc, hsome]; rfl
  · intro he; simp [mergeUpdate, he]

  · intro he; simp [mergeUpdate, he]
  · intro he; simp [mergeUpdate, he]
  · intro he; simp [mergeUpdate, he]

/-- Witness for update_pins_only_id_slug: a payload attempting to set id
and slug leaves both pinned. -/
theorem update_pins_only_id_slug_witness :
    storageGetBySlug sampleStore "milk" = some docA ∧
    updateDoc sampleStore "milk" { id := some "evil", slug := some "evil" } 9 =
      { result := .ok (mergeUpdate docA { id := some "evil", slug := some "evil" } 9),
        store := storagePut sampleStore "id1"
          (mergeUpdate docA { id := some "evil", slug := some "evil" } 9),
        puts := [("id1", mergeUpdate docA { id := some "evil", slug := some "evil" } 9)],
        dels := [] } ∧
    (mergeUpdate docA { id := some "evil", slug := some "evil" } 9).id = docA.id ∧
    (mergeUpdate docA { id := some "evil", slug := some "evil" } 9).slug = docA.slug :=
  ⟨by decide,
    (update_pins_only_id_slug sampleStore "milk"
      { id := some "evil", slug := some "evil" } 9 docA (by decide)).1,
    (update_pins_only_id_slug sampleStore "milk"
      { id := some "evil", slug := some "evil" } 9 docA (by decide)).2.1,
    (update_pins_only_id_slug sampleStore "milk"
      { id := some "evil", slug := some "evil" } 9 docA (by decide)).2.2.1⟩

theorem digitChar_isSlugChar {d : Nat} (h : d < 10) :
    isSlugChar (Nat.digitChar d) = true := by
  interval_cases d <;> decide

theorem natDecimalRepr_all_slugChars (n : Nat) :
    (natDecimalRepr n).toList.all isSlugChar = true := by
  rw [natDecimalRepr]
  by_cases h : n = 0
  · rw [if_pos h]; decide
  · rw [if_neg h]
    rw [show (String.mk ((Nat.digits 10 n).reverse.map Nat.digitChar)).toList
        = (Nat.digits 10 n).reverse.map Nat.digitChar from rfl]
    rw [List.all_eq_true]
    intro c hc
    rw [List.mem_map] at hc
    obtain ⟨d, hd, rfl⟩ := hc
    rw [List.mem_reverse] at hd
    exact digitChar_isSlugChar (Nat.digits_lt_base (by norm_num) hd)

theorem base36Char_isSlugChar (d : Fin 36) : isSlugChar (base36Char d) = true := by
  revert d; decide

theorem base36String_all_slugChars (ds : List (Fin 36)) :
    (base36String ds).toList.all isSlugChar = true := by
  show (ds.map base36Char).all isSlugChar = true
  rw [List.all_eq_true]
  intro c hc
  rw [List.mem_map] at hc
  obtain ⟨d, _, rfl⟩ := hc
  exact base36Char_isSlugChar d

/-- Every name produced by the shared generator expression matches the slug
validation regex. -/
theorem generatedName_valid (now : Nat) (ds : List (Fin 36)) :
    isValidSlug (generatedName now ds) = true := by
  have hdata : (generatedName now ds).toList =
      'd' :: 'o' :: 'c' :: '-' ::
        ((natDecimalRepr now).toList ++ '-' :: (base36String ds).toList) := by
    show ("doc-" ++ natDecimalRepr now ++ "-" ++ base36String ds).data = _
    rw [String.data_append, String.data_append, String.data_append,
      List.append_assoc, List.append_assoc]
    rfl
  rw [isValidSlug, hdata, Bool.and_eq_true]
  refine ⟨rfl, ?_⟩
  rw [List.all_cons, List.all_cons, List.all_cons, List.all_cons,
    List.all_append, List.all_cons]
  rw [natDecimalRepr_all_slugChars, base36String_all_slugChars]
  decide

/-- C7: the create path that omits the slug (the index-page create action,
which generates `doc-(time)-(random)` and posts it) always produces a slug
of the allowed format and succeeds whenever the generated slug is not
already held, persisting the new record; a supplied slug that fails the
format check makes create fail with ValidationError and no write. -/
theorem create_slug_generation_and_validation (st : Store)
    (slugNow idNow : Nat) (slugDs idDs : List (Fin 36)) (s : String)
    (t : Option String)
    (hfree : storageGetBySlug st (generatedName slugNow slugDs) = none)
    (hbad : isValidSlug s = false) :
    isValidSlug (generatedName slugNow slugDs) = true ∧
    uiCreate st slugNow slugDs idNow idDs =
      { result := .ok
          { id := generatedName idNow idDs, slug := generatedName slugNow slugDs,
            title := "Untitled", content := "", createdAt := idNow,
            updatedAt := idNow, archived := false },
        store := storagePut st (generatedName idNow idDs)
          { id := generatedName idNow idDs, slug := generatedName slugNow slugDs,
            title := "Untitled", content := "", createdAt := idNow,
            updatedAt := idNow, archived := false },
        puts := [(generatedName idNow idDs,
          { id := generatedName idNow idDs, slug := generatedName slugNow slugDs,
            title := "Untitled", content := "", createdAt := idNow,
            updatedAt := idNow, archived := false })],
        dels := [] } ∧
    apiCreate st (some s) t idNow idDs =
      { result := .error .validationError, store := st, puts := [], dels := [] } := by
  refine ⟨generatedName_valid slugNow slugDs, ?_, ?_⟩
  · rw [uiCreate, apiCreate]
    rw [generatedName_valid slugNow slugDs, hfree]
    simp only [Bool.not_true, Bool.false_eq_true, if_false,
      Option.isSome_none, ite_self]
  · rw [apiCreate.eq_def]
    simp [hbad]

/-- Witness for create_slug_generation_and_validation at a concrete store
and generator draws. -/
theorem create_slug_generation_and_validation_witness :
    storageGetBySlug sampleStore (generatedName 7 [10]) = none ∧
    isValidSlug "bad slug" = false ∧
    (isValidSlug (generatedName 7 [10]) = true ∧
      uiCreate sampleStore 7 [10] 8 [11] =
        { result := .ok
            { id := generatedName 8 [11], slug := generatedName 7 [10],
              title := "Untitled", content := "", createdAt := 8,
              updatedAt := 8, archived := false },
          store := storagePut sampleStore (generatedName 8 [11])
            { id := generatedName 8 [11], slug := generatedName 7 [10],
              title := "Untitled", content := "", createdAt := 8,
              updatedAt := 8, archived := false },
          puts := [(generatedName 8 [11],
            { id := generatedName 8 [11], slug := generatedName 7 [10],
              title := "Untitled", content := "", createdAt := 8,
              updatedAt := 8, archived := false })],
          dels := [] } ∧
      apiCreate sampleStore (some "bad slug") (some "T") 8 [11] =
        { result := .error .validationError, store := sampleStore,
          puts := [], dels := [] }) :=
  ⟨by decide, by decide,
    create_slug_generation_and_validation sampleStore 7 8 [10] [11] "bad slug"
      (some "T") (by decide) (by decide)⟩

/-- C8: on a fresh store, create with slug milk-list and title Milk List
followed by getBySlug of milk-list returns a record with the same id, slug
and title as the created one, with empty content and archived false. -/
theorem create_then_getBySlug_roundtrip (now : Nat) (ds : List (Fin 36)) :
    (apiCreate ([] : Store) (some "milk-list") (some "Milk List") now ds).result =
      .ok { id := generatedName now ds, slug := "milk-list", title := "Milk List",
            content := "", createdAt := now, updatedAt := now, archived := false } ∧
    storageGetBySlug
        (apiCreate ([] : Store) (some "milk-list") (some "Milk List") now ds).store
        "milk-list" =
      some { id := generatedName now ds, slug := "milk-list", title := "Milk List",
             content := "", createdAt := now, updatedAt := now, archived := false } :=
  ⟨rfl, rfl⟩

/-- Legacy stored record lacking an id (the pre-migration shape, for which
`!doc.id` is true). -/
def legacyDoc : Document :=
  { id := "", slug := "milk", title := "t", content := "c",
    createdAt := 1, updatedAt := 2, archived := false }

/-- C9 counterexample: at a concrete legacy record, the migrating read's
event trace completes the migration put strictly before the respond event,
refuting the claim that the response does not wait for the completion of
the migration write. -/
theorem migration_read_nonblocking_cex :
    respondNotDelayedByPut
      (storageGetWithMigration [("milk", legacyDoc)] "milk" 5 []).1 = false := by
  decide

/-- C9 (amended): a read that triggers lazy id migration awaits the
persistence put of the migrated record before responding: the trace runs
get, put issued, put completed, respond, in that order; the response
carries the migrated record, which is persisted under the same key. -/
theorem migration_read_awaits_put (st : Store) (slug : String) (d : Document)
    (now : Nat) (ds : List (Fin 36))
    (hget : storageGet st slug = some d) (hid : d.id = "") :
    (storageGetWithMigration st slug now ds).1 =
      [.getDone slug, .putIssued slug { d with id := generatedName now ds },
        .putDone slug { d with id := generatedName now ds },
        .respondDoc { d with id := generatedName now ds }] ∧
    respondNotDelayedByPut (storageGetWithMigration st slug now ds).1 = false ∧
    (storageGetWithMigration st slug now ds).2 =
      storagePut st slug { d with id := generatedName now ds } ∧
    storageGet (storageGetWithMigration st slug now ds).2 slug =
      some { d with id := generatedName now ds } := by
  have hres : storageGetWithMigration st slug now ds =
      ([.getDone slug, .putIssued slug { d with id := generatedName now ds },
        .putDone slug { d with id := generatedName now ds },
        .respondDoc { d with id := generatedName now ds }],
        storagePut st slug { d with id := generatedName now ds }) := by
    simp [storageGetWithMigration, hget, hid]
  refine ⟨by rw [hres], by rw [hres]; rfl, by rw [hres], ?_⟩
  rw [hres]
  exact storageGet_storagePut_self st slug _

/-- Witness for migration_read_awaits_put on a concrete legacy store. -/
theorem migration_read_awaits_put_witness :
    storageGet [("milk", legacyDoc)] "milk" = some legacyDoc ∧
    legacyDoc.id = "" ∧
    ((storageGetWithMigration [("milk", legacyDoc)] "milk" 5 []).1 =
      [.getDone "milk", .putIssued "milk" { legacyDoc with id := generatedName 5 [] },
        .putDone "milk" { legacyDoc with id := generatedName 5 [] },
        .respondDoc { legacyDoc with id := generatedName 5 [] }] ∧
     respondNotDelayedByPut (storageGetWithMigration [("milk", legacyDoc)] "milk" 5 []).1 = false ∧
     (storageGetWithMigration [("milk", legacyDoc)] "milk" 5 []).2 =
       storagePut [("milk", legacyDoc)] "milk" { legacyDoc with id := generatedName 5 [] } ∧
     storageGet (storageGetWithMigration [("milk", legacyDoc)] "milk" 5 []).2 "milk" =
       some { legacyDoc with id := generatedName 5 [] }) :=
  ⟨by decide, by decide,
    migration_read_awaits_put [("milk", legacyDoc)] "milk" legacyDoc 5 []
      (by decide) (by decide)⟩

/-- The session-switch property for a pair of distinct rooms, along the
client trace that starts at the initial state, requests room A, switches to
room B (React running the old effect's cleanup first), and then receives
the superseded room A provider's synced event followed by room B
provider's synced event. From the initial state, A's ydoc is allocation 0
and A's provider allocation 1; B's ydoc is allocation 2 and B's provider
allocation 3. -/
def sessionSwitchSpec (A B : String) : Prop :=
  let w1 := roomChangeEffect World.initial A
  let w2 := roomChangeEffect (roomChangeCleanup w1) B
  let w3 := syncedFires w2 1
  let w4 := syncedFires w3 3
  -- the manager under the switch request tears down before constructing:
  -- requesting B from A's state is requesting B from the cleaned state
  getProvider w1.mgr B = getProvider (cleanup w1.mgr) B ∧
  -- room A's session while it is Connecting
  w1.mgr.currentRoom = some A ∧
  w1.mgr.ydoc = some ⟨0⟩ ∧
  w1.mgr.provider = some ⟨1, A⟩ ∧
  w1.con.isSynced = false ∧
  -- after the switch, room B's fresh handles are live and A's are destroyed
  w2.mgr.currentRoom = some B ∧
  w2.mgr.ydoc = some ⟨2⟩ ∧
  w2.mgr.provider = some ⟨3, B⟩ ∧
  w2.mgr.destroyedProviders = [1] ∧
  w2.mgr.destroyedYDocs = [0] ∧
  -- the consumer reset its render gate synchronously at the request
  w2.con.isSynced = false ∧
  w2.con.docId = B ∧
  -- the same switch from A's already Synced state reaches the same state
  roomChangeEffect (roomChangeCleanup (syncedFires w1 1)) B = w2 ∧
  -- room A's late synced callback is discarded without any state change
  w3 = w2 ∧
  w3.con.isSynced = false ∧
  -- room B's synced event is the one that opens the gate
  w4.con.isSynced = true ∧
  w4.mgr.provider = some ⟨3, B⟩ ∧
  w4.mgr.providerSynced = true ∧
  w4.con.docId = B ∧
  -- content of room A's ydoc handle never renders after the switch
  ¬ rendersHandle w2 ⟨0⟩ ∧ ¬ rendersHandle w3 ⟨0⟩ ∧ ¬ rendersHandle w4 ⟨0⟩

/-- Teardown completes before construction begins: when the requested room
differs from the current one, getProvider is getProvider from the cleaned
state. -/
theorem getProvider_room_change {s : ManagerState} {room : String}
    (h : s.currentRoom ≠ none ∧ s.currentRoom ≠ some room) :
    getProvider s room = getProvider (cleanup s) room := by
  have hcl : ¬((cleanup s).currentRoom ≠ none ∧
      (cleanup s).currentRoom ≠ some room) := fun hc => hc.1 rfl
  rw [getProvider, getProvider, if_pos h, if_neg hcl]

/-- C2: for every pair of distinct rooms, requesting a session for room B
while room A's session exists destroys A's provider and ydoc handles and
clears the room marker before B's handles are constructed, discards A's
late synced callback, lets only room B reach Synced, and never renders
content from A's ydoc handle. -/
theorem session_switch_discards_stale_sync (A B : String) (hAB : A ≠ B) :
    sessionSwitchSpec A B := by
  have houter : ((roomChangeEffect World.initial A).mgr.currentRoom ≠ none ∧
      (roomChangeEffect World.initial A).mgr.currentRoom ≠ some B) :=
    ⟨fun e => Option.noConfusion e, fun e => hAB (Option.some.inj e)⟩
  refine ⟨getProvider_room_change houter, ?_⟩
  simp [sessionSwitchSpec, roomChangeEffect, roomChangeCleanup, getProvider,
    getYDoc, cleanup, syncedFires, World.initial, ManagerState.initial,
    ConsumerState.initial, rendersHandle, hAB]

/-- Witness for session_switch_discards_stale_sync at two concrete rooms. -/
theorem session_switch_discards_stale_sync_witness :
    ("doc-A" : String) ≠ "doc-B" ∧ sessionSwitchSpec "doc-A" "doc-B" :=
  ⟨by decide, session_switch_discards_stale_sync "doc-A" "doc-B" (by decide)⟩

end SchillerTown
